import Mathlib

/-!
# Verification of the private-nft mint/reveal workflow

Shallow embedding of the repository's client-side mint/reveal workflow
(`src/frontend/src/components/HiddenNFTAppV2Simple.tsx`), the image-upload
fallback chain (`src/frontend/src/utils/imageUpload.ts`), the FHE message
encoding (`fheEncryption.ts`, shipped as `src/unnamed/part_002`), the
`HiddenAttributeNFT` Solidity contract (`src/unnamed/part_005`) and the V1
reveal path (`src/frontend/src/components/HiddenNFTApp.tsx`).

External collaborators (wallet, IPFS host, FHE relayer, chain) are modelled
as oracles: their outcomes are inputs of the embedded functions, while the
sequencing, validation and caching logic is translated from the source.
-/

namespace PrivateNFT

/-! ## Message encoding (`encryptMessage` in fheEncryption.ts)

The source converts the message to UTF-8 bytes with `TextEncoder` and packs
the first `Math.min(messageBytes.length, 32)` bytes into a BigInt:

    let messageNum = BigInt(0);
    for (let i = 0; i < Math.min(messageBytes.length, 32); i++) {
      messageNum = messageNum | (BigInt(messageBytes[i]) << BigInt(i * 8));
    }
-/

/-- UTF-8 bytes of a message, as produced by `new TextEncoder().encode(message)`
(the character-level UTF-8 encoder applied to the string's characters, which is
exactly `String.toUTF8`'s definition, kept kernel-reducible). -/
def utf8Bytes (s : String) : List Nat :=
  (s.data.flatMap (fun c => String.utf8EncodeChar c)).map (fun b => b.toNat)

/-- The packing loop body: fold over the bytes being processed, carrying the
running index `i` and accumulator `messageNum` (`acc ||| (b <<< (i * 8))`). -/
def encodeBytes : List Nat → Nat → Nat → Nat
  | [], _, acc => acc
  | b :: bs, i, acc => encodeBytes bs (i + 1) (acc ||| (b <<< (i * 8)))

/-- `messageNum` computed by `encryptMessage`: the loop runs for
`Math.min(messageBytes.length, 32)` iterations, i.e. over the first 32 bytes. -/
def messageToUint256 (s : String) : Nat :=
  encodeBytes ((utf8Bytes s).take 32) 0 0

/-- Reference little-endian value of a byte list (base-256, first byte least
significant), used to characterise the packing. -/
def bytesLE : List Nat → Nat
  | [] => 0
  | b :: bs => b + 256 * bytesLE bs

/-- The `maxLength` attribute of the mint form's message textarea. -/
def mintFormMaxLength : Nat := 100

/-- JavaScript `String.prototype.trim()`: strip whitespace from both ends. -/
def jsTrim (s : String) : String :=
  ⟨((s.data.dropWhile Char.isWhitespace).reverse.dropWhile Char.isWhitespace).reverse⟩

/-- `s.startsWith(p)`. -/
def strStartsWith (s p : String) : Bool := p.data.isPrefixOf s.data

/-! ## Image upload (`src/frontend/src/utils/imageUpload.ts`)

`uploadImage` validates MIME type and a 10 MB ceiling, tries Pinata when an
API key is configured, and otherwise falls back to base64 inlining, which is
rejected above 100 KB with a descriptive error. Environment variables and
network outcomes are oracle inputs; JS falsiness of a missing/empty env var
is modelled by `Option` (`none` = unset or empty string). -/

/-- A selected file: `name`, MIME `type`, `size` in bytes, and the data URL
that `FileReader.readAsDataURL` would produce for it. -/
structure ImageFile where
  name : String
  type : String
  size : Nat
  dataUrl : String
deriving Repr, DecidableEq

/-- Result of `uploadImage`: the pair returned to the mint pipeline. -/
structure UploadResult where
  imageUri : String
  previewUrl : String
deriving Repr, DecidableEq

/-- Pinata configuration read from `import.meta.env`. -/
structure PinataEnv where
  apiKey : Option String
  apiSecret : Option String
  gateway : Option String
deriving Repr, DecidableEq

/-- Outcomes of the external calls made during one upload attempt:
the Pinata POST (returning `IpfsHash` on success) and the `FileReader`. -/
structure UploadOracle where
  pinataResponse : Except String String
  readOk : Bool
deriving Repr

/-- `uploadToPinata`: fails when credentials are missing, otherwise returns
the `ipfs://` URI and a gateway preview URL built from the response hash. -/
def uploadToPinata (env : PinataEnv) (o : UploadOracle) : Except String UploadResult :=
  match env.apiKey, env.apiSecret with
  | some _, some _ =>
    match o.pinataResponse with
    | .error e => .error e
    | .ok ipfsHash =>
      .ok { imageUri := "ipfs://" ++ ipfsHash,
            previewUrl := (env.gateway.getD "https://gateway.pinata.cloud") ++ "/ipfs/" ++ ipfsHash }
  | _, _ => .error "Pinata API credentials not configured"

/-- `uploadAsBase64`: resolves with the file's data URL, or rejects when the
reader errors. -/
def uploadAsBase64 (o : UploadOracle) (file : ImageFile) : Except String UploadResult :=
  if o.readOk then .ok { imageUri := file.dataUrl, previewUrl := file.dataUrl }
  else .error "Failed to read file"

/-- `Math.round(file.size / 1024)` (round half away from zero on a
non-negative value). -/
def roundKB (size : Nat) : Nat := (2 * size + 1024) / 2048

/-- The descriptive error thrown when the base64 fallback is hit by a file
above the 100 KB inline ceiling. -/
def inlineSizeError (size : Nat) : String :=
  "Image too large for on-chain storage (" ++ toString (roundKB size) ++
    "KB). Please use an image under 100KB, or configure Pinata IPFS in .env file. " ++
    "See .env.example for setup instructions."

/-- The base64 fallback tail of `uploadImage` (everything after the Pinata
attempt): enforce the 100 KB ceiling, then inline. -/
def base64Fallback (o : UploadOracle) (file : ImageFile) : Except String UploadResult :=
  if file.size > 100 * 1024 then .error (inlineSizeError file.size)
  else uploadAsBase64 o file

/-- `uploadImage` from `src/frontend/src/utils/imageUpload.ts`.
The `try`/`catch` around the Pinata attempt means a Pinata failure falls
through to the base64 fallback instead of propagating. -/
def uploadImage (env : PinataEnv) (o : UploadOracle) (file : ImageFile) :
    Except String UploadResult :=
  if ¬ strStartsWith file.type "image/" then .error "File must be an image"
  else if file.size > 10 * 1024 * 1024 then .error "Image must be less than 10MB"
  else
    match env.apiKey with
    | some _ =>
      match uploadToPinata env o with
      | .ok r => .ok r
      | .error _ => base64Fallback o file
    | none => base64Fallback o file

/-! ## The V2Simple client (`HiddenNFTAppV2Simple.tsx`)

State of the component that the claims depend on: the localStorage plaintext
cache, the `decryptedAttributes` revealed map, the gallery token list, the
single `activeDecrypt` slot and the three status strings. Collaborator
outcomes (upload, FHE encryption, transaction submission, confirmation,
contract read, remote decryption) are oracle inputs. -/

/-- localStorage: a flat string-keyed store, modelled as an association list. -/
def lsGet (store : List (String × String)) (k : String) : Option String :=
  (store.find? (fun p => p.1 = k)).map (fun p => p.2)

/-- `localStorage.setItem`. -/
def lsSet (store : List (String × String)) (k v : String) : List (String × String) :=
  (k, v) :: store.filter (fun p => p.1 ≠ k)

/-- The cache key `nft_message_${address}_${tokenId}`. -/
def cacheKey (address : String) (tokenId : Nat) : String :=
  "nft_message_" ++ address ++ "_" ++ toString tokenId

/-- Component state of `HiddenNFTAppV2Simple` (fields the claims mention).
`nfts` holds the token ids currently shown in the gallery;
`decryptedAttributes` is keyed by `tokenId.toString()`. -/
structure ClientState where
  cache : List (String × String)
  decryptedAttributes : List (String × String)
  nfts : List Nat
  activeDecrypt : Option Nat
  mintStatus : String
  transferStatus : String
  decryptStatus : String
deriving Repr, DecidableEq

/-- Initial component state. -/
def initialClient : ClientState :=
  { cache := [], decryptedAttributes := [], nfts := [], activeDecrypt := none,
    mintStatus := "", transferStatus := "", decryptStatus := "" }

/-- The mint transaction receipt: `receipt.logs[0]?.topics[3]`, parsed with
`Number(...)` when present (`none` models a missing log/topic). -/
structure Receipt where
  topics3 : Option Nat
deriving Repr, DecidableEq

/-- Outcomes of the collaborators invoked by `handleMint`, in pipeline order.
`confirm` is `tx.wait()`: it can reject, resolve with a receipt, or resolve
with `null` (`.ok none`). -/
structure MintOracle where
  upload : Except String UploadResult
  encrypt : Except String Unit
  submit : Except String Unit
  confirm : Except String (Option Receipt)
deriving Repr

/-- The collaborator steps of one mint attempt, in the order `handleMint`
invokes them. -/
inductive MintStep
  | upload
  | encrypt
  | submitTx
  | confirmWait
  | cacheWrite
deriving Repr, DecidableEq

/-- `handleMint`. Validations run first (wallet connected, image selected,
trimmed message non-empty) and return without invoking any collaborator.
The `try` block then awaits upload → encrypt → (signer + `contract.mint`) →
`tx.wait`; a rejection at any await jumps to the `catch`, which only sets the
status. The plaintext cache write happens only inside
`if (receipt) ... if (tokenId)`. The returned list is the sequence of
collaborator steps that were invoked, in order. The final component state
records the last status written on that path (interim progress statuses are
overwritten). -/
def handleMint (walletAddress : Option String) (selectedImage : Option ImageFile)
    (mintValue : String) (o : MintOracle) (s : ClientState) :
    ClientState × List MintStep :=
  match walletAddress with
  | none => ({ s with mintStatus := "💼 Please connect your wallet first." }, [])
  | some address =>
    match selectedImage with
    | none => ({ s with mintStatus := "Please select an image for the NFT." }, [])
    | some _ =>
      if jsTrim mintValue = "" then
        ({ s with mintStatus := "Please enter a message for the NFT." }, [])
      else
        match o.upload with
        | .error e => ({ s with mintStatus := "❌ " ++ e }, [.upload])
        | .ok _ =>
          match o.encrypt with
          | .error e => ({ s with mintStatus := "❌ " ++ e }, [.upload, .encrypt])
          | .ok _ =>
            match o.submit with
            | .error e =>
              ({ s with mintStatus := "❌ " ++ e }, [.upload, .encrypt, .submitTx])
            | .ok _ =>
              match o.confirm with
              | .error e =>
                ({ s with mintStatus := "❌ " ++ e },
                 [.upload, .encrypt, .submitTx, .confirmWait])
              | .ok none =>
                -- `tx.wait()` resolved with null: the `if (receipt)` body is skipped
                ({ s with mintStatus :=
                    "⏳ Waiting for blockchain confirmation... Check Etherscan for your transaction." },
                 [.upload, .encrypt, .submitTx, .confirmWait])
              | .ok (some r) =>
                match r.topics3 with
                | none =>
                  ({ s with mintStatus :=
                      "✅ NFT minted successfully! Check Etherscan for your transaction." },
                   [.upload, .encrypt, .submitTx, .confirmWait])
                | some tokenId =>
                  ({ s with
                      cache := lsSet s.cache (cacheKey address tokenId) mintValue,
                      mintStatus :=
                        "✅ NFT minted successfully! Check Etherscan for your transaction." },
                   [.upload, .encrypt, .submitTx, .confirmWait, .cacheWrite])

/-- Hex digit, as matched by the `[a-fA-F0-9]` character class. -/
def isHexDigitChar (c : Char) : Bool :=
  c.isDigit || ('a' ≤ c && c ≤ 'f') || ('A' ≤ c && c ≤ 'F')

/-- The `ZERO_ADDRESS` regex of `HiddenNFTAppV2Simple.tsx` line 91:
`^0x[a-fA-F0-9]\x7b40\x7d$`, i.e. exactly `0x` followed by 40 hex digits. -/
def isEthAddress (s : String) : Bool :=
  s.data.length = 42 && strStartsWith s "0x" && (s.data.drop 2).all isHexDigitChar

/-- Decimal value of a digit string (the value `Number(...)` yields on it). -/
def digitsToNat (cs : List Char) : Nat :=
  cs.foldl (fun acc c => 10 * acc + (c.toNat - 48)) 0

/-- `Number(transferToken)` followed by the
`!Number.isInteger(tokenId) || tokenId < 0` check, restricted to the
digit-only strings the token input produces (its `onChange` strips
non-digits). `Number('')` is `0`, which passes the check. -/
def parseTokenId (s : String) : Option Nat :=
  if s.data.all Char.isDigit then some (digitsToNat s.data) else none

/-- Outcomes of the transaction collaborators invoked by `handleTransfer`:
`submit` is `contract.transferFrom`, `confirm` is `tx.wait()` (`.ok false`
models a null receipt). -/
structure TransferOracle where
  submit : Except String Unit
  confirm : Except String Bool
deriving Repr

/-- The collaborator steps of one transfer attempt. -/
inductive TransferStep
  | submitTx
  | confirmWait
deriving Repr, DecidableEq

/-- `handleTransfer`. Address validation happens before the token-id check
and before any chain interaction. On a confirmed transfer the handler only
sets the success status and clears the two form fields: `cache`,
`decryptedAttributes` and `nfts` are left untouched on every path. -/
def handleTransfer (walletAddress : Option String)
    (transferAddress transferToken : String) (o : TransferOracle)
    (s : ClientState) : ClientState × List TransferStep :=
  match walletAddress with
  | none => ({ s with transferStatus := "💼 Please connect your wallet first." }, [])
  | some _ =>
    if ¬ isEthAddress (jsTrim transferAddress) then
      ({ s with transferStatus := "Enter a valid Ethereum address (0x...)" }, [])
    else
      match parseTokenId transferToken with
      | none =>
        ({ s with transferStatus := "Enter a valid token ID (must be a number)" }, [])
      | some _ =>
        match o.submit with
        | .error e => ({ s with transferStatus := "❌ " ++ e }, [.submitTx])
        | .ok _ =>
          match o.confirm with
          | .error e =>
            ({ s with transferStatus := "❌ " ++ e }, [.submitTx, .confirmWait])
          | .ok false =>
            ({ s with transferStatus :=
                "⏳ Transaction submitted! Waiting for confirmation..." },
             [.submitTx, .confirmWait])
          | .ok true =>
            ({ s with transferStatus :=
                "✅ Transfer completed! Check Etherscan for your transaction." },
             [.submitTx, .confirmWait])

/-- The collaborator steps of one reveal attempt in `decryptMessage`:
the `getEncryptedMessage` contract read and the `decryptUint256` call. -/
inductive RevealStep
  | contractRead
  | decryptCall
deriving Repr, DecidableEq

/-- `setDecryptedAttributes(prev => ...)`: functional update of the revealed
map under key `tokenId.toString()`. -/
def setAttr (attrs : List (String × String)) (tokenId : Nat) (v : String) :
    List (String × String) :=
  (toString tokenId, v) :: attrs.filter (fun p => p.1 ≠ toString tokenId)

/-- The remote tail of `decryptMessage` (after a cache miss): read the
ciphertext handle from the contract, then attempt `decryptUint256`. A read
failure lands in the outer `catch`; a decryption failure is downgraded to the
placeholder text. Every path runs the `finally`, clearing `activeDecrypt`. -/
def decryptRemote (tokenId : Nat) (readHandle : Except String Nat)
    (decrypt : Except String String) (s : ClientState) :
    ClientState × List RevealStep :=
  match readHandle with
  | .error e =>
    ({ s with decryptStatus := "❌ " ++ e, activeDecrypt := none }, [.contractRead])
  | .ok _ =>
    match decrypt with
    | .ok m =>
      ({ s with
          decryptedAttributes := setAttr s.decryptedAttributes tokenId m
          decryptStatus := "✅ Message decrypted!"
          activeDecrypt := none },
       [.contractRead, .decryptCall])
    | .error _ =>
      ({ s with
          decryptedAttributes := setAttr s.decryptedAttributes tokenId
            "🔒 Message encrypted on-chain. Only owner with local key can view."
          decryptStatus := "ℹ️ Message is FHE-encrypted on blockchain"
          activeDecrypt := none },
       [.contractRead, .decryptCall])

/-- `decryptMessage` of `HiddenNFTAppV2Simple`. Priority order: the token
must be in the loaded gallery, then the localStorage cache is consulted
(`if (localMessage)` is false for a missing entry and for the empty string),
and only on a cache miss does the remote path run. -/
def decryptMessage (walletAddress : Option String) (tokenId : Nat)
    (readHandle : Except String Nat) (decrypt : Except String String)
    (s : ClientState) : ClientState × List RevealStep :=
  -- template literal `nft_message_${wallet.address}_...` renders a missing
  -- address as the string "undefined"
  let address := walletAddress.getD "undefined"
  if ¬ s.nfts.contains tokenId then
    ({ s with decryptStatus := "❌ NFT not found", activeDecrypt := none }, [])
  else
    match lsGet s.cache (cacheKey address tokenId) with
    | some m =>
      if m = "" then decryptRemote tokenId readHandle decrypt s
      else
        ({ s with
            decryptedAttributes := setAttr s.decryptedAttributes tokenId m
            decryptStatus := "✅ Message revealed from local storage!"
            activeDecrypt := none }, [])
    | none => decryptRemote tokenId readHandle decrypt s

/-- The browser's `maxLength={100}` constraint on the mint textarea: a change
event can only ever install a value of at most 100 characters (longer input
is truncated by the control before `onChange` fires). -/
def textareaInput (input : String) : String :=
  if input.data.length ≤ mintFormMaxLength then input
  else ⟨input.data.take mintFormMaxLength⟩

/-! ## The `HiddenAttributeNFT` contract (`src/unnamed/part_005`)

Accounts and ciphertext handles are `Nat` (0 is the zero address / the
uninitialized handle: `FHE.isInitialized` is exactly "handle is nonzero").
`_nextTokenId` lives in an `unchecked` block, so it wraps modulo `2 ^ 256`.
Reverts are modelled by `Except`: a failing call leaves the state unchanged.
-/

/-- `2 ^ 256`, the modulus of `uint256` arithmetic. -/
def UINT256 : Nat := 2 ^ 256

/-- Contract storage: token counter, ERC-721 owners, the two per-token
mappings, the FHE access-control list (handle → account → allowed) and the
base URI. `self` is the contract's own address (the target of
`FHE.allowThis`). -/
structure ContractState where
  self : Nat
  contractOwner : Nat
  nextTokenId : Nat
  owners : Nat → Nat
  messages : Nat → Nat
  imageURIs : Nat → String
  acl : Nat → Nat → Bool
  baseTokenURI : String

/-- Constructor: counter starts at 1, no tokens, no messages, empty ACL. -/
def initialContract (self deployer : Nat) (baseURI : String) : ContractState :=
  { self := self, contractOwner := deployer, nextTokenId := 1,
    owners := fun _ => 0, messages := fun _ => 0, imageURIs := fun _ => "",
    acl := fun _ _ => false, baseTokenURI := baseURI }

/-- The revert reasons relevant to the embedded entry points. -/
inductive ContractError
  | invalidReceiver
  | invalidSender
  | incorrectOwner
  | nonexistentToken
  | attributeNotInitialized (tokenId : Nat)
  | notContractOwner
deriving Repr, DecidableEq

/-- `FHE.allow h a` followed by `FHE.allowThis h`: grant `a` and the contract
itself access to handle `h`. -/
def aclAllow (acl : Nat → Nat → Bool) (self h a : Nat) : Nat → Nat → Bool :=
  fun h2 a2 => if h2 = h ∧ (a2 = a ∨ a2 = self) then true else acl h2 a2

/-- `mint(encryptedMessage, inputProof, imageURI)`: take the next id
(wrapping `unchecked` increment), `_safeMint` to the caller (reverting for
the zero address or an already-owned id, per OpenZeppelin `_mint`), convert
the external ciphertext (`FHE.fromExternal`, modelled as the oracle-supplied
handle value), store message and image URI, and grant access to the contract
and the minter. -/
def Contract.mint (s : ContractState) (sender handle : Nat) (uri : String) :
    Except ContractError (ContractState × Nat) :=
  if sender = 0 then .error .invalidReceiver
  else if s.owners s.nextTokenId ≠ 0 then .error .invalidSender
  else
    .ok ({ s with
            nextTokenId := (s.nextTokenId + 1) % UINT256
            owners := fun t => if t = s.nextTokenId then sender else s.owners t
            messages := fun t => if t = s.nextTokenId then handle else s.messages t
            imageURIs := fun t => if t = s.nextTokenId then uri else s.imageURIs t
            acl := aclAllow s.acl s.self handle sender },
         s.nextTokenId)

/-- `transferFrom(from, to, tokenId)` through the overridden `_update`:
OpenZeppelin rejects the zero receiver, a nonexistent token and a `from`
that is not the owner; on success only the owner changes, plus the override
grants the new owner (and the contract) access to the stored handle when it
is initialized. The caller is assumed authorized (`auth` checks are the
wallet's concern, not part of the claims). -/
def Contract.transferFrom (s : ContractState) (fromAddr toAddr tokenId : Nat) :
    Except ContractError ContractState :=
  if toAddr = 0 then .error .invalidReceiver
  else if s.owners tokenId = 0 then .error .nonexistentToken
  else if s.owners tokenId ≠ fromAddr then .error .incorrectOwner
  else
    .ok { s with
            owners := fun t => if t = tokenId then toAddr else s.owners t
            acl := if s.messages tokenId ≠ 0 then
                     aclAllow s.acl s.self (s.messages tokenId) toAddr
                   else s.acl }

/-- `getEncryptedMessage(tokenId)`: `ownerOf` reverts for a nonexistent
token, then an uninitialized handle reverts with
`AttributeNotInitialized(tokenId)`. -/
def Contract.getEncryptedMessage (s : ContractState) (tokenId : Nat) :
    Except ContractError Nat :=
  if s.owners tokenId = 0 then .error .nonexistentToken
  else if s.messages tokenId = 0 then .error (.attributeNotInitialized tokenId)
  else .ok (s.messages tokenId)

/-- `setBaseTokenURI(newBaseURI)` (`onlyOwner`). -/
def Contract.setBaseTokenURI (s : ContractState) (sender : Nat) (uri : String) :
    Except ContractError ContractState :=
  if sender ≠ s.contractOwner then .error .notContractOwner
  else .ok { s with baseTokenURI := uri }

/-- The state-changing entry points of the contract. -/
inductive ContractOp
  | mint (sender handle : Nat) (uri : String)
  | transferFrom (fromAddr toAddr tokenId : Nat)
  | setBaseTokenURI (sender : Nat) (uri : String)

/-- One transaction: a revert leaves the state unchanged. -/
def Contract.applyOp (s : ContractState) : ContractOp → ContractState
  | .mint sender handle uri =>
    match Contract.mint s sender handle uri with
    | .ok (s2, _) => s2
    | .error _ => s
  | .transferFrom fromAddr toAddr tokenId =>
    match Contract.transferFrom s fromAddr toAddr tokenId with
    | .ok s2 => s2
    | .error _ => s
  | .setBaseTokenURI sender uri =>
    match Contract.setBaseTokenURI s sender uri with
    | .ok s2 => s2
    | .error _ => s

/-- Run a sequence of transactions. -/
def Contract.run (s : ContractState) (ops : List ContractOp) : ContractState :=
  ops.foldl Contract.applyOp s

/-- States reachable from deployment by any transaction sequence. -/
inductive ContractReachable : ContractState → Prop
  | init (self deployer : Nat) (baseURI : String) :
      ContractReachable (initialContract self deployer baseURI)
  | step (s : ContractState) (op : ContractOp) :
      ContractReachable s → ContractReachable (Contract.applyOp s op)

/-! ## The V1 reveal path (`HiddenNFTApp.tsx`, `decryptMessage`)

After reading the handle via `getEncryptedMessage`, the client generates an
ephemeral keypair, builds and signs the EIP-712 authorization and calls
`userDecrypt`. A contract revert lands in the `catch` before any of those
collaborator calls. -/

/-- FHE-collaborator calls made by the V1 reveal, in invocation order. -/
inductive DecryptCollabStep
  | generateKeypair
  | createEIP712
  | signTypedData
  | userDecrypt
deriving Repr, DecidableEq

/-- Outcome of one V1 reveal attempt. -/
inductive RevealResult
  | revealed (msg : String)
  | failed (status : String)
deriving Repr, DecidableEq

/-- `decryptMessage` of `HiddenNFTApp`: contract read, client-side guard for
a falsy/`0x`/`0x00` handle, then keypair → EIP-712 → signature →
`userDecrypt` (each of the last two an oracle: the wallet signature and the
relayer decryption, which may return no value for the handle). -/
def decryptMessageV1 (c : ContractState) (tokenId : Nat)
    (signature : Except String String)
    (userDecrypt : Except String (Option String)) :
    RevealResult × List DecryptCollabStep :=
  match Contract.getEncryptedMessage c tokenId with
  | .error _ => (.failed "Decryption failed", [])
  | .ok h =>
    if h = 0 then (.failed "Message is empty for this token.", [])
    else
      match signature with
      | .error e =>
        (.failed e, [.generateKeypair, .createEIP712, .signTypedData])
      | .ok _ =>
        match userDecrypt with
        | .error e =>
          (.failed e,
           [.generateKeypair, .createEIP712, .signTypedData, .userDecrypt])
        | .ok none =>
          (.failed "Decryption did not return a value.",
           [.generateKeypair, .createEIP712, .signTypedData, .userDecrypt])
        | .ok (some v) =>
          (.revealed v,
           [.generateKeypair, .createEIP712, .signTypedData, .userDecrypt])

/-! ## Single-flight guard of the V2Simple reveal (claim about concurrency)

`activeDecrypt` is a single `number | null` slot. The reveal button of token
`t` is disabled exactly when `activeDecrypt === t`, so a click on `t` is
possible only in states with `activeDecrypt ≠ some t`. `decryptMessage`
synchronously sets `activeDecrypt := t` and (for a cache-miss token) then
awaits the contract read and `decryptUint256`; its `finally` resets the slot
to `null`. We track the multiset of outstanding `decryptUint256` invocations
in `inflight`. -/

/-- UI state relevant to the single-flight question. -/
structure RevealUIState where
  activeDecrypt : Option Nat
  inflight : List Nat
deriving Repr, DecidableEq

/-- Events: a click on token `t`'s reveal button (possible only while that
button is enabled) starting a cache-miss reveal, and the completion of an
outstanding reveal for `t` (running the `finally`). -/
inductive RevealEvent
  | click (t : Nat)
  | finish (t : Nat)
deriving Repr, DecidableEq

/-- Small-step transition relation of the reveal UI. -/
inductive RevealStepRel : RevealUIState → RevealEvent → RevealUIState → Prop
  | click (s : RevealUIState) (t : Nat) (h : s.activeDecrypt ≠ some t) :
      RevealStepRel s (.click t) ⟨some t, t :: s.inflight⟩
  | finish (s : RevealUIState) (t : Nat) (h : t ∈ s.inflight) :
      RevealStepRel s (.finish t) ⟨none, s.inflight.erase t⟩

/-- Multi-step runs labelled by the event sequence. -/
inductive RevealTrace : RevealUIState → List RevealEvent → RevealUIState → Prop
  | refl (s : RevealUIState) : RevealTrace s [] s
  | cons (s1 : RevealUIState) (e : RevealEvent) (s2 : RevealUIState)
      (es : List RevealEvent) (s3 : RevealUIState) :
      RevealStepRel s1 e s2 → RevealTrace s2 es s3 → RevealTrace s1 (e :: es) s3

/-- The initial reveal UI state: no active reveal, nothing outstanding. -/
def revealInit : RevealUIState := ⟨none, []⟩

/-! ## Concrete scenario values

Used by the closed counterexample/witness theorems below. -/

/-- A connected account. -/
def addrA : String := "0xA11CE00000000000000000000000000000000001"

/-- A valid transfer target. -/
def addrB : String := "0xB0B0000000000000000000000000000000000002"

/-- The malformed target address of the spec's transfer scenario. -/
def addrInvalid : String := "0xZZZZZZZZZZZZZZZZZZZZZZZZZZZZZZZZZZZZZZZZ"

/-- A small PNG. -/
def imgSmall : ImageFile :=
  { name := "pic.png", type := "image/png", size := 50 * 1024,
    dataUrl := "data:image/png;base64,AAAA" }

/-- An image file of exactly 100 KB (the inline ceiling). -/
def imgAtCeiling : ImageFile :=
  { name := "pic.png", type := "image/png", size := 100 * 1024,
    dataUrl := "data:image/png;base64,BBBB" }

/-- An image file just above the inline ceiling. -/
def imgOverCeiling : ImageFile :=
  { name := "big.png", type := "image/png", size := 100 * 1024 + 1,
    dataUrl := "data:image/png;base64,CCCC" }

/-- No Pinata credentials configured. -/
def envNoPinata : PinataEnv := { apiKey := none, apiSecret := none, gateway := none }

/-- An upload-call oracle whose file read succeeds (the Pinata response is
irrelevant without credentials). -/
def oReadOk : UploadOracle := { pinataResponse := .error "unreachable", readOk := true }

/-- A fully successful mint: upload ok, encryption ok, transaction mined with
a receipt whose first log carries token id 1 in `topics[3]`. -/
def oMintOk : MintOracle :=
  { upload := .ok { imageUri := "ipfs://QmHash1", previewUrl := "https://gateway.pinata.cloud/ipfs/QmHash1" },
    encrypt := .ok (), submit := .ok (),
    confirm := .ok (some { topics3 := some 1 }) }

/-- A confirmed transfer transaction. -/
def oTransferOk : TransferOracle := { submit := .ok (), confirm := .ok true }

/-- State after account `addrA` mints token 1 with message `"hello"`. -/
def afterMint : ClientState :=
  (handleMint (some addrA) (some imgSmall) "hello" oMintOk initialClient).1

/-- The same state once the gallery has been reloaded (`loadNFTs`). -/
def afterGallery : ClientState := { afterMint with nfts := [1] }

/-- State after `addrA` transfers token 1 away to `addrB` (confirmed). -/
def afterTransfer : ClientState :=
  (handleTransfer (some addrA) addrB "1" oTransferOk afterGallery).1

/-- A mint-form message of length 101, one over the bound. -/
def msg101 : String := String.mk (List.replicate 101 'a')

/-- Reveal-UI state after `click 1`. -/
def cexS1 : RevealUIState := { activeDecrypt := some 1, inflight := [1] }

/-- Reveal-UI state after `click 1, click 2`. -/
def cexS2 : RevealUIState := { activeDecrypt := some 2, inflight := [2, 1] }

/-- Reveal-UI state after `click 1, click 2, click 1`: token 1 now has two
outstanding decryption requests. -/
def cexS3 : RevealUIState := { activeDecrypt := some 1, inflight := [1, 2, 1] }

/-- Deployed contract instance (contract address 99, deployer 7). -/
def c0 : ContractState := initialContract 99 7 "https://base/"

/-- `c0` after account 5 mints token 1 with ciphertext handle 42. -/
def c1 : ContractState := Contract.applyOp c0 (.mint 5 42 "ipfs://QmImg")

/-- `c0` after account 5 mints token 1 with a zero handle (modelling a token
whose ciphertext was never initialized, while `ownerOf` succeeds). -/
def c1zero : ContractState := Contract.applyOp c0 (.mint 5 0 "ipfs://QmImg")

/-! ## Helper lemmas -/

/-- Disjoint bit-fields: `or`-ing a value below `2 ^ k` with a multiple of
`2 ^ k` is addition. -/
lemma lor_mul_two_pow_eq_add (k : Nat) :
    ∀ a b : Nat, a < 2 ^ k → a ||| b * 2 ^ k = a + b * 2 ^ k := by
  induction k with
  | zero =>
    intro a b h
    have ha : a = 0 := Nat.lt_one_iff.mp (by simpa using h)
    simp [ha]
  | succ k ih =>
    intro a b h
    have hb : b * 2 ^ (k + 1) = Nat.bit false (b * 2 ^ k) := by
      simp [Nat.bit_val, pow_succ]
      ring
    have ha : a = Nat.bit (a % 2 = 1) (a >>> 1) :=
      (Nat.bit_decide_mod_two_eq_one_shiftRight_one a).symm
    have hdiv : a >>> 1 < 2 ^ k := by
      rw [Nat.shiftRight_one]
      have h2 : a < 2 ^ k * 2 := by
        simpa [pow_succ] using h
      omega
    calc a ||| b * 2 ^ (k + 1)
        = Nat.bit (a % 2 = 1) (a >>> 1) ||| Nat.bit false (b * 2 ^ k) := by
          rw [← ha, ← hb]
      _ = Nat.bit ((a % 2 = 1 : Bool) || false) ((a >>> 1) ||| b * 2 ^ k) := by
          rw [Nat.lor_bit]
      _ = Nat.bit (a % 2 = 1) ((a >>> 1) + b * 2 ^ k) := by
          rw [Bool.or_false, ih _ b hdiv]
      _ = a + b * 2 ^ (k + 1) := by
          rw [Nat.bit_val, Nat.shiftRight_one]
          have h2 : a = 2 * (a / 2) + (decide (a % 2 = 1)).toNat := by
            conv_lhs => rw [ha]
            rw [Nat.bit_val, Nat.shiftRight_one]
          have h4 : b * 2 ^ (k + 1) = 2 * (b * 2 ^ k) := by rw [pow_succ]; ring
          omega

/-- Unfolding of the packing loop into the reference little-endian value,
valid because all processed values are bytes (< 256). -/
lemma encodeBytes_eq_add_bytesLE :
    ∀ (bs : List Nat) (i acc : Nat), (∀ b ∈ bs, b < 256) → acc < 2 ^ (i * 8) →
      encodeBytes bs i acc = acc + bytesLE bs * 2 ^ (i * 8) := by
  intro bs
  induction bs with
  | nil => intro i acc _ _; simp [encodeBytes, bytesLE]
  | cons b bs ih =>
    intro i acc hbytes hacc
    have hb : b < 256 := hbytes b (by simp)
    have hshift : b <<< (i * 8) = b * 2 ^ (i * 8) := Nat.shiftLeft_eq b (i * 8)
    have hor : acc ||| b <<< (i * 8) = acc + b * 2 ^ (i * 8) := by
      rw [hshift]; exact lor_mul_two_pow_eq_add (i * 8) acc b hacc
    have hpow : 2 ^ ((i + 1) * 8) = 256 * 2 ^ (i * 8) := by
      rw [Nat.succ_mul, pow_add]; ring
    have hble : b * 2 ^ (i * 8) ≤ 255 * 2 ^ (i * 8) :=
      mul_le_mul_right' (show b ≤ 255 by omega) (2 ^ (i * 8))
    have hlt : acc + b * 2 ^ (i * 8) < 2 ^ ((i + 1) * 8) := by
      rw [hpow]; omega
    have := ih (i + 1) (acc + b * 2 ^ (i * 8)) (fun x hx => hbytes x (by simp [hx])) hlt
    calc encodeBytes (b :: bs) i acc
        = encodeBytes bs (i + 1) (acc + b * 2 ^ (i * 8)) := by
          simp [encodeBytes, hor]
      _ = acc + b * 2 ^ (i * 8) + bytesLE bs * 2 ^ ((i + 1) * 8) := this
      _ = acc + bytesLE (b :: bs) * 2 ^ (i * 8) := by
          have h2 : 2 ^ ((i + 1) * 8) = 2 ^ (i * 8) * 256 := by
            rw [Nat.succ_mul, pow_add]; norm_num
          simp [bytesLE, h2]; ring

/-- Every UTF-8 byte is below 256. -/
lemma utf8Bytes_lt_256 (s : String) : ∀ b ∈ utf8Bytes s, b < 256 := by
  intro b hb
  simp only [utf8Bytes, List.mem_map] at hb
  obtain ⟨u, _, rfl⟩ := hb
  exact u.toNat_lt


/-- Members of a take are members of the list. -/
lemma mem_take_imp_mem {a : Nat} {l : List Nat} {n : Nat} (h : a ∈ l.take n) : a ∈ l :=
  List.mem_of_mem_take h

/-! ## Claim theorems -/

/-- C3: the encryption step packs only the first 32 bytes of the message's
UTF-8 representation into the plaintext integer, little-endian (base-256,
first byte least significant); consequently any two messages whose UTF-8
encodings agree on their first 32 bytes produce the same plaintext integer,
and bytes beyond the first 32 are never represented in it. -/
theorem encryptMessage_uses_only_first_32_bytes :
    (∀ s t : String, (utf8Bytes s).take 32 = (utf8Bytes t).take 32 →
        messageToUint256 s = messageToUint256 t)
    ∧ (∀ s : String, messageToUint256 s = bytesLE ((utf8Bytes s).take 32))
    ∧ mintFormMaxLength = 100 := by
  have hchar : ∀ s : String, messageToUint256 s = bytesLE ((utf8Bytes s).take 32) := by
    intro s
    have h1 : ∀ b ∈ (utf8Bytes s).take 32, b < 256 := fun b hb =>
      utf8Bytes_lt_256 s b (mem_take_imp_mem hb)
    have h2 := encodeBytes_eq_add_bytesLE ((utf8Bytes s).take 32) 0 0 h1 (by norm_num)
    simpa [messageToUint256] using h2
  exact ⟨fun s t h => by rw [hchar s, hchar t, h], hchar, rfl⟩

/-- C3 witness: two distinct 39-character messages agreeing on their first
32 bytes encrypt to the same plaintext integer. -/
theorem encryptMessage_uses_only_first_32_bytes_witness :
    ("0123456789abcdef0123456789abcdefTAILONE" ≠ "0123456789abcdef0123456789abcdefTAIL222")
    ∧ messageToUint256 "0123456789abcdef0123456789abcdefTAILONE"
        = messageToUint256 "0123456789abcdef0123456789abcdefTAIL222" :=
  ⟨by decide,
   encryptMessage_uses_only_first_32_bytes.1
     "0123456789abcdef0123456789abcdefTAILONE"
     "0123456789abcdef0123456789abcdefTAIL222" (by decide)⟩

/-- C5 counterexample: an image file of exactly the 100 KB inline ceiling
(so its size is ≥ the ceiling), with no content-addressed host configured,
is inlined successfully instead of failing with a size error. -/
theorem uploadImage_at_ceiling_succeeds_counterexample :
    imgAtCeiling.size = 100 * 1024
    ∧ envNoPinata.apiKey = none
    ∧ uploadImage envNoPinata oReadOk imgAtCeiling =
        .ok { imageUri := imgAtCeiling.dataUrl, previewUrl := imgAtCeiling.dataUrl } :=
  ⟨rfl, rfl, rfl⟩

/-- C5 (amended): for every image file whose size is strictly greater than
the 100 KB inline ceiling, when no content-addressed host is configured,
`uploadImage` fails with a descriptive size error (the inline-storage
message carrying the rounded KB size, or the 10 MB message above that
ceiling) rather than truncating or inlining, and the mint pipeline fed this
failure invokes no further collaborator: no transaction is issued. -/
theorem uploadImage_over_ceiling_fails_no_tx
    (env : PinataEnv) (o : UploadOracle) (file : ImageFile)
    (hkey : env.apiKey = none)
    (himg : strStartsWith file.type "image/" = true)
    (hsize : 100 * 1024 < file.size)
    (addr : String) (img2 : ImageFile) (mv : String) (mo : MintOracle)
    (s : ClientState)
    (hmv : jsTrim mv ≠ "")
    (hmo : mo.upload = uploadImage env o file) :
    uploadImage env o file =
      .error (if 10 * 1024 * 1024 < file.size then "Image must be less than 10MB"
              else inlineSizeError file.size)
    ∧ (handleMint (some addr) (some img2) mv mo s).2 = [MintStep.upload] := by
  have hup : uploadImage env o file =
      .error (if 10 * 1024 * 1024 < file.size then "Image must be less than 10MB"
              else inlineSizeError file.size) := by
    unfold uploadImage
    rw [hkey]
    simp only [himg]
    by_cases h10 : 10 * 1024 * 1024 < file.size
    · simp [h10]
    · simp only [gt_iff_lt, h10, if_false, if_neg h10]
      unfold base64Fallback
      simp [hsize]
  refine ⟨hup, ?_⟩
  simp only [handleMint]
  rw [if_neg hmv, hmo, hup]

/-- C5 witness: a 100 KB + 1 byte PNG with no Pinata key fails the upload
with the inline-storage size error, and the mint pipeline stops after the
upload step. -/
theorem uploadImage_over_ceiling_fails_no_tx_witness :
    uploadImage envNoPinata oReadOk imgOverCeiling =
      .error (if 10 * 1024 * 1024 < imgOverCeiling.size then "Image must be less than 10MB"
              else inlineSizeError imgOverCeiling.size)
    ∧ (handleMint (some addrA) (some imgOverCeiling) "hello"
        { oMintOk with upload := uploadImage envNoPinata oReadOk imgOverCeiling }
        initialClient).2 = [MintStep.upload] :=
  uploadImage_over_ceiling_fails_no_tx envNoPinata oReadOk imgOverCeiling rfl (by decide)
    (by decide) addrA imgOverCeiling "hello" _ initialClient (by decide) rfl

/-- C10: a transfer request whose target address does not match
`^0x[a-fA-F0-9]` followed by exactly 40 hex digits is rejected with the
address-validation status and no transaction collaborator is invoked. -/
theorem transfer_invalid_address_rejected
    (addr ta tt : String) (o : TransferOracle) (s : ClientState)
    (hbad : isEthAddress (jsTrim ta) = false) :
    handleTransfer (some addr) ta tt o s =
      ({ s with transferStatus := "Enter a valid Ethereum address (0x...)" }, []) := by
  simp [handleTransfer, hbad]

/-- C10 witness: transferring token 3 to a 0xZZZZ... address is rejected
with the validation status and the step trace is empty. -/
theorem transfer_invalid_address_rejected_witness :
    isEthAddress (jsTrim addrInvalid) = false
    ∧ handleTransfer (some addrA) addrInvalid "3" oTransferOk initialClient =
        ({ initialClient with transferStatus := "Enter a valid Ethereum address (0x...)" }, []) :=
  ⟨by decide,
   transfer_invalid_address_rejected addrA addrInvalid "3" oTransferOk initialClient (by decide)⟩

/-- C1 (code bug, concrete run): `addrA` mints token 1 with message "hello"
(which writes the cache entry), then transfers token 1 away to `addrB` with
a confirmed transaction — yet the transfer handler leaves the local cache
entry and the revealed map untouched, and a subsequent reveal of token 1 by
`addrA` still returns "hello" from the cache. -/
theorem transfer_leaves_cache_and_reveal_code_bug :
    lsGet afterMint.cache (cacheKey addrA 1) = some "hello"
    ∧ (handleTransfer (some addrA) addrB "1" oTransferOk afterGallery).2 =
        [TransferStep.submitTx, TransferStep.confirmWait]
    ∧ afterTransfer.transferStatus = "✅ Transfer completed! Check Etherscan for your transaction."
    ∧ afterTransfer.cache = afterGallery.cache
    ∧ afterTransfer.decryptedAttributes = afterGallery.decryptedAttributes
    ∧ lsGet afterTransfer.cache (cacheKey addrA 1) = some "hello"
    ∧ (decryptMessage (some addrA) 1 (.error "unused") (.error "unused") afterTransfer).2 = []
    ∧ lsGet (decryptMessage (some addrA) 1 (.error "unused") (.error "unused")
        afterTransfer).1.decryptedAttributes "1" = some "hello" := by
  refine ⟨?_, ?_, ?_, ?_, ?_, ?_, ?_, ?_⟩ <;> decide

/-- C4 counterexample: a message of length 101 (one over the bound) is not
rejected by `handleMint`: with all collaborators succeeding, the full
pipeline — upload, encrypt, submit, confirm, cache write — runs. -/
theorem mint_101_message_not_rejected_counterexample :
    msg101.length = 101
    ∧ (handleMint (some addrA) (some imgSmall) msg101 oMintOk initialClient).2 =
        [MintStep.upload, MintStep.encrypt, MintStep.submitTx, MintStep.confirmWait,
         MintStep.cacheWrite] := by
  constructor <;> decide

/-- C4 (amended): the 100-character bound is enforced by the textarea's
`maxLength` attribute — every value the form control can install has length
at most 100, so a length-101 message cannot be submitted through the form —
while `handleMint` itself performs no length validation: for any connected
wallet, selected image and non-empty trimmed message of any length, the
first collaborator (the image upload) is invoked. -/
theorem mint_length_bound_amended :
    (∀ input : String, (textareaInput input).length ≤ mintFormMaxLength)
    ∧ (∀ (addr : String) (img : ImageFile) (mv : String) (mo : MintOracle)
        (s : ClientState), jsTrim mv ≠ "" →
        ((handleMint (some addr) (some img) mv mo s).2).head? = some MintStep.upload) := by
  constructor
  · intro input
    dsimp [textareaInput]
    split
    · assumption
    · show (input.data.take mintFormMaxLength).length ≤ mintFormMaxLength
      rw [List.length_take]
      exact Nat.min_le_left _ _
  · intro addr img mv mo s hmv
    simp only [handleMint]
    rw [if_neg hmv]
    rcases mo with ⟨up, enc, sub, conf⟩
    rcases up with e | u
    · rfl
    · rcases enc with e2 | u2
      · rfl
      · rcases sub with e3 | u3
        · rfl
        · rcases conf with e4 | r
          · rfl
          · rcases r with _ | r
            · rfl
            · rcases r with ⟨t3⟩
              rcases t3 with _ | t
              · rfl
              · rfl

/-- C4 witness: the amended theorem at a concrete non-empty message. -/
theorem mint_length_bound_amended_witness :
    jsTrim "hi" ≠ ""
    ∧ ((handleMint (some addrA) (some imgSmall) "hi" oMintOk initialClient).2).head?
        = some MintStep.upload :=
  ⟨by decide,
   mint_length_bound_amended.2 addrA imgSmall "hi" oMintOk initialClient (by decide)⟩

/-- Looking up the key just written into localStorage returns its value. -/
lemma lsGet_lsSet_self (store : List (String × String)) (k v : String) :
    lsGet (lsSet store k v) k = some v := by
  unfold lsGet lsSet
  rw [List.find?_cons_of_pos _ (by simp)]
  rfl

/-- Looking up the token just written into the revealed map returns its value. -/
lemma lsGet_setAttr_self (attrs : List (String × String)) (t : Nat) (v : String) :
    lsGet (setAttr attrs t v) (toString t) = some v := by
  unfold lsGet setAttr
  rw [List.find?_cons_of_pos _ (by simp)]
  rfl

/-- The empty string trims to itself. -/
lemma jsTrim_empty : jsTrim "" = "" := rfl

/-- C2: a token minted by account `addr` with message `mv` (successful
pipeline, receipt carrying token id `t`) and then revealed by `addr` on the
same device (with the gallery loaded) returns exactly `mv` from the local
cache: the reveal's collaborator trace is empty — neither the contract read
nor the decryption collaborator is invoked — and the revealed map holds
`mv` under `t`. -/
theorem mint_then_reveal_roundtrip
    (addr mv : String) (img : ImageFile) (u : UploadResult) (t : Nat)
    (ns : List Nat) (readO : Except String Nat) (decO : Except String String)
    (s : ClientState)
    (hmv : jsTrim mv ≠ "") (hns : t ∈ ns) :
    (decryptMessage (some addr) t readO decO
        { (handleMint (some addr) (some img) mv
            { upload := .ok u, encrypt := .ok (), submit := .ok (),
              confirm := .ok (some { topics3 := some t }) } s).1 with nfts := ns }).2 = []
    ∧ lsGet (decryptMessage (some addr) t readO decO
        { (handleMint (some addr) (some img) mv
            { upload := .ok u, encrypt := .ok (), submit := .ok (),
              confirm := .ok (some { topics3 := some t }) } s).1 with
          nfts := ns }).1.decryptedAttributes (toString t) = some mv := by
  have hmint : (handleMint (some addr) (some img) mv
      { upload := .ok u, encrypt := .ok (), submit := .ok (),
        confirm := .ok (some { topics3 := some t }) } s).1 =
      { s with
          cache := lsSet s.cache (cacheKey addr t) mv
          mintStatus := "✅ NFT minted successfully! Check Etherscan for your transaction." } := by
    simp only [handleMint]
    rw [if_neg hmv]
  rw [hmint]
  have hcont : List.contains ns t = true := by
    simpa [List.contains] using List.elem_iff.mpr hns
  have hmvne : mv ≠ "" := fun h => hmv (by rw [h]; exact jsTrim_empty)
  simp only [decryptMessage, Option.getD, hcont, lsGet_lsSet_self, if_neg hmvne]
  constructor
  · simp
  · simp [lsGet_setAttr_self]

/-- C2 witness: `addrA` mints token 1 with "hello" and immediately reveals
it: the plaintext comes back from the cache with no collaborator calls. -/
theorem mint_then_reveal_roundtrip_witness :
    (decryptMessage (some addrA) 1 (.error "unused") (.error "unused")
        { (handleMint (some addrA) (some imgSmall) "hello"
            { upload := .ok { imageUri := "ipfs://QmHash1", previewUrl := "p" },
              encrypt := .ok (), submit := .ok (),
              confirm := .ok (some { topics3 := some 1 }) } initialClient).1 with
          nfts := [1] }).2 = []
    ∧ lsGet (decryptMessage (some addrA) 1 (.error "unused") (.error "unused")
        { (handleMint (some addrA) (some imgSmall) "hello"
            { upload := .ok { imageUri := "ipfs://QmHash1", previewUrl := "p" },
              encrypt := .ok (), submit := .ok (),
              confirm := .ok (some { topics3 := some 1 }) } initialClient).1 with
          nfts := [1] }).1.decryptedAttributes (toString 1) = some "hello" :=
  mint_then_reveal_roundtrip addrA "hello" imgSmall
    { imageUri := "ipfs://QmHash1", previewUrl := "p" } 1 [1]
    (.error "unused") (.error "unused") initialClient (by decide) (by decide)

/-- C6: within one mint the collaborator trace is always a prefix of
upload → encrypt → submit → confirm → cache-write; each later step is
reached only if every earlier collaborator succeeded (so no transaction is
submitted when upload or encryption fails), and without a cache-write step
the plaintext cache is unchanged (so no cache write happens unless the
transaction confirmed with a token id in the receipt). -/
theorem mint_pipeline_order
    (addr : String) (img : ImageFile) (mv : String) (o : MintOracle)
    (s : ClientState) :
    (∃ n, (handleMint (some addr) (some img) mv o s).2 =
        [MintStep.upload, MintStep.encrypt, MintStep.submitTx, MintStep.confirmWait,
         MintStep.cacheWrite].take n)
    ∧ (MintStep.encrypt ∈ (handleMint (some addr) (some img) mv o s).2 →
        ∃ r, o.upload = .ok r)
    ∧ (MintStep.submitTx ∈ (handleMint (some addr) (some img) mv o s).2 →
        (∃ r, o.upload = .ok r) ∧ o.encrypt = .ok ())
    ∧ (MintStep.confirmWait ∈ (handleMint (some addr) (some img) mv o s).2 →
        (∃ r, o.upload = .ok r) ∧ o.encrypt = .ok () ∧ o.submit = .ok ())
    ∧ (MintStep.cacheWrite ∈ (handleMint (some addr) (some img) mv o s).2 →
        (∃ r, o.upload = .ok r) ∧ o.encrypt = .ok () ∧ o.submit = .ok ()
        ∧ ∃ t, o.confirm = .ok (some { topics3 := some t }))
    ∧ (MintStep.cacheWrite ∉ (handleMint (some addr) (some img) mv o s).2 →
        (handleMint (some addr) (some img) mv o s).1.cache = s.cache) := by
  rcases o with ⟨up, enc, sub, conf⟩
  by_cases hmv : jsTrim mv = ""
  · simp only [handleMint, if_pos hmv]
    exact ⟨⟨0, rfl⟩, by simp, by simp, by simp, by simp, fun _ => trivial⟩
  · simp only [handleMint, if_neg hmv]
    rcases up with e | u
    · exact ⟨⟨1, rfl⟩, by simp, by simp, by simp, by simp, fun _ => rfl⟩
    · rcases enc with e2 | u2
      · exact ⟨⟨2, rfl⟩, fun _ => ⟨u, rfl⟩, by simp, by simp, by simp, fun _ => rfl⟩
      · rcases sub with e3 | u3
        · exact ⟨⟨3, rfl⟩, fun _ => ⟨u, rfl⟩, fun _ => ⟨⟨u, rfl⟩, rfl⟩, by simp,
            by simp, fun _ => rfl⟩
        · rcases conf with e4 | r
          · exact ⟨⟨4, rfl⟩, fun _ => ⟨u, rfl⟩, fun _ => ⟨⟨u, rfl⟩, rfl⟩,
              fun _ => ⟨⟨u, rfl⟩, rfl, rfl⟩, by simp, fun _ => rfl⟩
          · rcases r with _ | r
            · exact ⟨⟨4, rfl⟩, fun _ => ⟨u, rfl⟩, fun _ => ⟨⟨u, rfl⟩, rfl⟩,
                fun _ => ⟨⟨u, rfl⟩, rfl, rfl⟩, by simp, fun _ => rfl⟩
            · rcases r with ⟨t3⟩
              rcases t3 with _ | t
              · exact ⟨⟨4, rfl⟩, fun _ => ⟨u, rfl⟩, fun _ => ⟨⟨u, rfl⟩, rfl⟩,
                  fun _ => ⟨⟨u, rfl⟩, rfl, rfl⟩, by simp, fun _ => rfl⟩
              · refine ⟨⟨5, rfl⟩, fun _ => ⟨u, rfl⟩, fun _ => ⟨⟨u, rfl⟩, rfl⟩,
                  fun _ => ⟨⟨u, rfl⟩, rfl, rfl⟩,
                  fun _ => ⟨⟨u, rfl⟩, rfl, rfl, ⟨t, rfl⟩⟩, fun h => absurd (by simp) h⟩

/-- C6 witness: the pipeline-order theorem at a concrete successful mint. -/
theorem mint_pipeline_order_witness :
    (∃ n, (handleMint (some addrA) (some imgSmall) "hello" oMintOk initialClient).2 =
        [MintStep.upload, MintStep.encrypt, MintStep.submitTx, MintStep.confirmWait,
         MintStep.cacheWrite].take n)
    ∧ (MintStep.encrypt ∈ (handleMint (some addrA) (some imgSmall) "hello" oMintOk initialClient).2 →
        ∃ r, oMintOk.upload = .ok r)
    ∧ (MintStep.submitTx ∈ (handleMint (some addrA) (some imgSmall) "hello" oMintOk initialClient).2 →
        (∃ r, oMintOk.upload = .ok r) ∧ oMintOk.encrypt = .ok ())
    ∧ (MintStep.confirmWait ∈ (handleMint (some addrA) (some imgSmall) "hello" oMintOk initialClient).2 →
        (∃ r, oMintOk.upload = .ok r) ∧ oMintOk.encrypt = .ok () ∧ oMintOk.submit = .ok ())
    ∧ (MintStep.cacheWrite ∈ (handleMint (some addrA) (some imgSmall) "hello" oMintOk initialClient).2 →
        (∃ r, oMintOk.upload = .ok r) ∧ oMintOk.encrypt = .ok () ∧ oMintOk.submit = .ok ()
        ∧ ∃ t, oMintOk.confirm = .ok (some { topics3 := some t }))
    ∧ (MintStep.cacheWrite ∉ (handleMint (some addrA) (some imgSmall) "hello" oMintOk initialClient).2 →
        (handleMint (some addrA) (some imgSmall) "hello" oMintOk initialClient).1.cache =
          initialClient.cache) :=
  mint_pipeline_order addrA imgSmall "hello" oMintOk initialClient

/-- C7: a reveal of a token whose ciphertext handle is unset or zero fails
fast: `getEncryptedMessage` reverts (with `AttributeNotInitialized` whenever
the token exists, with the ERC-721 nonexistent-token error otherwise), and
the V1 reveal path makes no FHE-collaborator call at all — in particular the
decryption collaborator is never invoked. -/
theorem reveal_uninitialized_fails_fast
    (c : ContractState) (tokenId : Nat)
    (sig : Except String String) (ud : Except String (Option String))
    (h : c.messages tokenId = 0) :
    Contract.getEncryptedMessage c tokenId =
      .error (if c.owners tokenId = 0 then ContractError.nonexistentToken
              else ContractError.attributeNotInitialized tokenId)
    ∧ decryptMessageV1 c tokenId sig ud = (.failed "Decryption failed", []) := by
  have hread : Contract.getEncryptedMessage c tokenId =
      .error (if c.owners tokenId = 0 then ContractError.nonexistentToken
              else ContractError.attributeNotInitialized tokenId) := by
    unfold Contract.getEncryptedMessage
    by_cases ho : c.owners tokenId = 0
    · simp [ho]
    · simp [ho, h]
  refine ⟨hread, ?_⟩
  unfold decryptMessageV1
  rw [hread]

/-- C7 witness: token 1 minted with a zero handle. `ownerOf` succeeds (its
owner is account 5), the read reverts with `AttributeNotInitialized`, and no
collaborator step runs. -/
theorem reveal_uninitialized_fails_fast_witness :
    c1zero.owners 1 = 5
    ∧ (Contract.getEncryptedMessage c1zero 1 =
        .error (if c1zero.owners 1 = 0 then ContractError.nonexistentToken
                else ContractError.attributeNotInitialized 1)
      ∧ decryptMessageV1 c1zero 1 (.error "sig") (.error "ud") =
          (.failed "Decryption failed", [])) :=
  ⟨rfl, reveal_uninitialized_fails_fast c1zero 1 (.error "sig") (.error "ud") rfl⟩

/-- In every reachable contract state, a token with an initialized handle
has a (nonzero) owner: mints assign a nonzero owner, and transfers never
move a token to the zero address. -/
lemma reachable_message_imp_owner {s : ContractState} (h : ContractReachable s) :
    ∀ t, s.messages t ≠ 0 → s.owners t ≠ 0 := by
  induction h with
  | init self deployer baseURI =>
    intro t ht
    simp [initialContract] at ht
  | step s op hs ih =>
    intro t ht
    cases op with
    | mint sender handle uri =>
      by_cases h0 : sender = 0
      · have hred : Contract.applyOp s (.mint sender handle uri) = s := by
          simp [Contract.applyOp, Contract.mint, h0]
        rw [hred] at ht ⊢
        exact ih t ht
      · by_cases h1 : s.owners s.nextTokenId = 0
        · have hred : Contract.applyOp s (.mint sender handle uri) =
              { s with
                  nextTokenId := (s.nextTokenId + 1) % UINT256
                  owners := fun t2 => if t2 = s.nextTokenId then sender else s.owners t2
                  messages := fun t2 => if t2 = s.nextTokenId then handle else s.messages t2
                  imageURIs := fun t2 => if t2 = s.nextTokenId then uri else s.imageURIs t2
                  acl := aclAllow s.acl s.self handle sender } := by
            simp [Contract.applyOp, Contract.mint, h0, h1]
          rw [hred] at ht ⊢
          by_cases h2 : t = s.nextTokenId
          · simpa [h2] using h0
          · simp only [h2, if_false] at ht ⊢
            exact ih t ht
        · have hred : Contract.applyOp s (.mint sender handle uri) = s := by
            simp [Contract.applyOp, Contract.mint, h0, h1]
          rw [hred] at ht ⊢
          exact ih t ht
    | transferFrom fa ta tid =>
      rcases htr : Contract.transferFrom s fa ta tid with e | s2
      · have hred : Contract.applyOp s (.transferFrom fa ta tid) = s := by
          simp [Contract.applyOp, htr]
        rw [hred] at ht ⊢
        exact ih t ht
      · have hred : Contract.applyOp s (.transferFrom fa ta tid) = s2 := by
          simp [Contract.applyOp, htr]
        rw [hred] at ht ⊢
        unfold Contract.transferFrom at htr
        split_ifs at htr with hta h0 hfa hmsg
        · injection htr with h4
          subst h4
          by_cases h2 : t = tid
          · simpa [h2] using hta
          · simp only [h2, if_false] at ht ⊢
            exact ih t ht
        · injection htr with h4
          subst h4
          by_cases h2 : t = tid
          · simpa [h2] using hta
          · simp only [h2, if_false] at ht ⊢
            exact ih t ht
    | setBaseTokenURI sender uri =>
      rcases hsb : Contract.setBaseTokenURI s sender uri with e | s2
      · have hred : Contract.applyOp s (.setBaseTokenURI sender uri) = s := by
          simp [Contract.applyOp, hsb]
        rw [hred] at ht ⊢
        exact ih t ht
      · have hred : Contract.applyOp s (.setBaseTokenURI sender uri) = s2 := by
          simp [Contract.applyOp, hsb]
        rw [hred] at ht ⊢
        unfold Contract.setBaseTokenURI at hsb
        split_ifs at hsb with hso
        injection hsb with h4
        subst h4
        exact ih t ht

/-- One transaction never changes an already-initialized token's message
handle or its image URI. -/
lemma applyOp_preserves_set_message {s : ContractState} (h : ContractReachable s)
    (op : ContractOp) (t : Nat) (ht : s.messages t ≠ 0) :
    (Contract.applyOp s op).messages t = s.messages t ∧
    (Contract.applyOp s op).imageURIs t = s.imageURIs t := by
  cases op with
  | mint sender handle uri =>
    by_cases h0 : sender = 0
    · have hred : Contract.applyOp s (.mint sender handle uri) = s := by
        simp [Contract.applyOp, Contract.mint, h0]
      rw [hred]
      exact ⟨rfl, rfl⟩
    · by_cases h1 : s.owners s.nextTokenId = 0
      · have hne : t ≠ s.nextTokenId := by
          intro h2
          exact reachable_message_imp_owner h t ht (h2 ▸ h1)
        have hred : Contract.applyOp s (.mint sender handle uri) =
            { s with
                nextTokenId := (s.nextTokenId + 1) % UINT256
                owners := fun t2 => if t2 = s.nextTokenId then sender else s.owners t2
                messages := fun t2 => if t2 = s.nextTokenId then handle else s.messages t2
                imageURIs := fun t2 => if t2 = s.nextTokenId then uri else s.imageURIs t2
                acl := aclAllow s.acl s.self handle sender } := by
          simp [Contract.applyOp, Contract.mint, h0, h1]
        rw [hred]
        exact ⟨by simp [hne], by simp [hne]⟩
      · have hred : Contract.applyOp s (.mint sender handle uri) = s := by
          simp [Contract.applyOp, Contract.mint, h0, h1]
        rw [hred]
        exact ⟨rfl, rfl⟩
  | transferFrom fa ta tid =>
    rcases htr : Contract.transferFrom s fa ta tid with e | s2
    · have hred : Contract.applyOp s (.transferFrom fa ta tid) = s := by
        simp [Contract.applyOp, htr]
      rw [hred]
      exact ⟨rfl, rfl⟩
    · have hred : Contract.applyOp s (.transferFrom fa ta tid) = s2 := by
        simp [Contract.applyOp, htr]
      rw [hred]
      unfold Contract.transferFrom at htr
      split_ifs at htr with hta h0 hfa hmsg
      · injection htr with h4
        subst h4
        exact ⟨rfl, rfl⟩
      · injection htr with h4
        subst h4
        exact ⟨rfl, rfl⟩
  | setBaseTokenURI sender uri =>
    rcases hsb : Contract.setBaseTokenURI s sender uri with e | s2
    · have hred : Contract.applyOp s (.setBaseTokenURI sender uri) = s := by
        simp [Contract.applyOp, hsb]
      rw [hred]
      exact ⟨rfl, rfl⟩
    · have hred : Contract.applyOp s (.setBaseTokenURI sender uri) = s2 := by
        simp [Contract.applyOp, hsb]
      rw [hred]
      unfold Contract.setBaseTokenURI at hsb
      split_ifs at hsb with hso
      injection hsb with h4
      subst h4
      exact ⟨rfl, rfl⟩

/-- Over any transaction sequence, an initialized handle and its image URI
are preserved. -/
lemma run_preserves_set_message :
    ∀ (ops : List ContractOp) (s : ContractState), ContractReachable s →
      ∀ t, s.messages t ≠ 0 →
        (Contract.run s ops).messages t = s.messages t ∧
        (Contract.run s ops).imageURIs t = s.imageURIs t := by
  intro ops
  induction ops with
  | nil => intro s _ t _; exact ⟨rfl, rfl⟩
  | cons op rest ih =>
    intro s h t ht
    have hstep := applyOp_preserves_set_message h op t ht
    have h2 : ContractReachable (Contract.applyOp s op) := ContractReachable.step s op h
    have ht2 : (Contract.applyOp s op).messages t ≠ 0 := by rw [hstep.1]; exact ht
    have hrest := ih (Contract.applyOp s op) h2 t ht2
    exact ⟨hrest.1.trans hstep.1, hrest.2.trans hstep.2⟩

/-- C9: in every reachable contract state, a token's ciphertext handle is
written exactly once, at mint, and never updated afterwards: (i) once
initialized, no further transaction sequence changes the handle or the
stored image URI; (ii) a successful mint writes its token's handle from the
uninitialized state; (iii) a successful transfer changes neither the message
mapping nor the image URIs, and (when the handle is initialized) grants the
new owner decryption access to it. -/
theorem handle_written_once (s : ContractState) (h : ContractReachable s) :
    (∀ (ops : List ContractOp) (t : Nat), s.messages t ≠ 0 →
        (Contract.run s ops).messages t = s.messages t ∧
        (Contract.run s ops).imageURIs t = s.imageURIs t)
    ∧ (∀ (sender handle : Nat) (uri : String) (s2 : ContractState) (tid : Nat),
        Contract.mint s sender handle uri = .ok (s2, tid) →
        s.messages tid = 0 ∧ s2.messages tid = handle)
    ∧ (∀ (fa ta tid : Nat) (s2 : ContractState),
        Contract.transferFrom s fa ta tid = .ok s2 →
        s2.messages = s.messages ∧ s2.imageURIs = s.imageURIs ∧
        (s.messages tid ≠ 0 → s2.acl (s.messages tid) ta = true)) := by
  refine ⟨fun ops t ht => run_preserves_set_message ops s h t ht, ?_, ?_⟩
  · intro sender handle uri s2 tid hm
    unfold Contract.mint at hm
    split_ifs at hm with h0 h1
    injection hm with h2
    injection h2 with h3 h4
    subst h4
    subst h3
    constructor
    · by_contra hne
      exact h1 (reachable_message_imp_owner h s.nextTokenId hne)
    · simp
  · intro fa ta tid s2 htr
    unfold Contract.transferFrom at htr
    split_ifs at htr with hta h0 hfa hmsg
    · injection htr with h4
      subst h4
      refine ⟨rfl, rfl, fun hm => ?_⟩
      unfold aclAllow
      simp
    · injection htr with h4
      subst h4
      exact ⟨rfl, rfl, fun hm => absurd hm hmsg⟩

/-- C9 witness: after minting token 1 with handle 42, a transfer and a
further mint leave its handle and image URI unchanged. -/
theorem handle_written_once_witness :
    c1.messages 1 = 42
    ∧ ((Contract.run c1 [ContractOp.transferFrom 5 6 1, ContractOp.mint 6 77 "ipfs://QmOther"]).messages 1
          = c1.messages 1
       ∧ (Contract.run c1 [ContractOp.transferFrom 5 6 1, ContractOp.mint 6 77 "ipfs://QmOther"]).imageURIs 1
          = c1.imageURIs 1) :=
  ⟨rfl,
   (handle_written_once c1
      (ContractReachable.step c0 (.mint 5 42 "ipfs://QmImg")
        (ContractReachable.init 99 7 "https://base/"))).1
     [ContractOp.transferFrom 5 6 1, ContractOp.mint 6 77 "ipfs://QmOther"] 1 (by decide)⟩

/-- C8 counterexample: the single-flight claim fails. From the idle UI,
click reveal on token 1 (its decrypt goes in flight), then on token 2
(`activeDecrypt` is overwritten, re-enabling token 1's button), then on
token 1 again: every click is permitted by the `activeDecrypt` guard, and
token 1 ends up with two outstanding decryption-collaborator invocations. -/
theorem reveal_duplicate_decrypt_counterexample :
    RevealTrace revealInit [RevealEvent.click 1, RevealEvent.click 2, RevealEvent.click 1] cexS3
    ∧ cexS3.inflight.count 1 = 2 := by
  constructor
  · refine RevealTrace.cons _ _ _ _ _ (RevealStepRel.click revealInit 1 (by decide)) ?_
    refine RevealTrace.cons _ _ _ _ _ (RevealStepRel.click cexS1 2 (by decide)) ?_
    refine RevealTrace.cons _ _ _ _ _ (RevealStepRel.click cexS2 1 (by decide)) ?_
    exact RevealTrace.refl cexS3
  · decide

/-- Invariant of the reveal UI under traces whose clicks all target one
token `t`: the outstanding-decrypt list is empty, or is exactly `[t]` with
`t` being the active decrypt (so its button is disabled). -/
lemma single_token_trace_inv (t : Nat) :
    ∀ (es : List RevealEvent) (s1 s2 : RevealUIState),
      RevealTrace s1 es s2 →
      (∀ u, RevealEvent.click u ∈ es → u = t) →
      (s1.inflight = [] ∨ (s1.inflight = [t] ∧ s1.activeDecrypt = some t)) →
      (s2.inflight = [] ∨ (s2.inflight = [t] ∧ s2.activeDecrypt = some t)) := by
  intro es
  induction es with
  | nil =>
    intro s1 s2 htr _ hinv
    cases htr
    exact hinv
  | cons e rest ih =>
    intro s1 s2 htr honly hinv
    cases htr with
    | cons _ _ smid _ _ hstep hrest =>
      refine ih smid s2 hrest (fun u hu => honly u (by simp [hu])) ?_
      cases hstep with
      | click u hne =>
        have hut : u = t := honly u (by simp)
        subst hut
        rcases hinv with h1 | ⟨h1, h2⟩
        · right
          exact ⟨by simp [h1], rfl⟩
        · exact absurd h2 hne
      | finish u hmem =>
        rcases hinv with h1 | ⟨h1, h2⟩
        · rw [h1] at hmem
          simp at hmem
        · left
          rw [h1] at hmem ⊢
          simp at hmem
          simp [hmem]

/-- C8 (amended): the duplicate guard is the single `activeDecrypt` slot, so
single-flight holds only as long as no reveal of a different token
intervenes: in any sequence of reveal events whose clicks all target the
same token id, at most one decryption-collaborator invocation for that token
is outstanding at any time (a second click while one is in flight is
ignored because that token's button is disabled). Once a click on a
different token occurs, a duplicate becomes possible (see the
counterexample). -/
theorem reveal_single_flight_amended (es : List RevealEvent) (s : RevealUIState)
    (t : Nat) (htr : RevealTrace revealInit es s)
    (honly : ∀ u, RevealEvent.click u ∈ es → u = t) :
    s.inflight.count t ≤ 1 := by
  have hinv := single_token_trace_inv t es revealInit s htr honly (Or.inl rfl)
  rcases hinv with h | ⟨h, _⟩ <;> simp [h]

/-- C8 witness: a click–finish–click sequence on token 7 alone keeps at most
one outstanding invocation. -/
theorem reveal_single_flight_amended_witness :
    (⟨some 7, [7]⟩ : RevealUIState).inflight.count 7 ≤ 1 :=
  reveal_single_flight_amended
    [RevealEvent.click 7, RevealEvent.finish 7, RevealEvent.click 7]
    ⟨some 7, [7]⟩ 7
    (RevealTrace.cons _ _ _ _ _ (RevealStepRel.click revealInit 7 (by decide))
      (RevealTrace.cons _ _ _ _ _ (RevealStepRel.finish ⟨some 7, [7]⟩ 7 (by decide))
        (RevealTrace.cons _ _ _ _ _ (RevealStepRel.click ⟨none, []⟩ 7 (by decide))
          (RevealTrace.refl _))))
    (by
      intro u hu
      simp at hu
      exact hu)

end PrivateNFT
